import Mathlib

/-!
Verification development for the NSEFI harvesting/snapshot pipeline.

Shallow embedding of the repository's backend logic:
  * `backend/storage.py`   (snapshot store, staleness predicate)
  * `backend/adapters/cerc.py`  (CERC list-page extractor, date normalizer, dedupe/sort)
  * `backend/adapters/ctuil.py` (CTUIL row extractor, textual date coercion, dedupe)
  * `publish_month.py`     (harvest orchestrator / snapshot merge)

Library boundaries (HTML selection via BeautifulSoup, HTTP, `urljoin` URL
resolution, the `RELEVANCE` regex pre-filter) are modelled as inputs or as
small documented stand-ins; every piece of repository logic (regex date
patterns, calendar validity, month filtering, deduplication, sorting,
JSON snapshot persistence) is translated faithfully from the source.
-/

namespace NSEFI

/-- Value of a decimal digit character (models `int` on one digit; `'0'` is 48). -/
def charVal (c : Char) : Nat := c.toNat - 48

/-- Models Python `int()` applied to a non-empty string of decimal digits. -/
def natOfDigits (l : List Char) : Nat := l.foldl (fun a c => 10 * a + charVal c) 0

/-- Decimal digit characters of `n`, most significant first, accumulated into `acc`.
Fuel-structural so that the kernel can evaluate it on concrete input. -/
def pyDecimalAux : Nat → Nat → List Char → List Char
  | 0, _, acc => acc
  | fuel + 1, n, acc =>
    if n = 0 then acc
    else pyDecimalAux fuel (n / 10) (Nat.digitChar (n % 10) :: acc)

/-- Decimal representation of a natural number, as Python `str`/`repr` produces it. -/
def pyDecimal (n : Nat) : List Char :=
  if n = 0 then ['0'] else pyDecimalAux n n []

/-- Python zero-padded minimum-width formatting, as in `f"{n:04d}"` / `f"{n:02d}"`. -/
def zfill (w n : Nat) : List Char :=
  List.replicate (w - (pyDecimal n).length) '0' ++ pyDecimal n

/-- The f-string `f"{y:04d}-{m:02d}-{d:02d}"` used for the fallback dates. -/
def fmtDate (y m d : Nat) : String := ⟨zfill 4 y ++ '-' :: (zfill 2 m ++ '-' :: zfill 2 d)⟩

/-- `datetime(y,m,d).strftime("%Y-%m-%d")`: `%m` and `%d` zero-pad to two digits,
but `%Y` does not pad years below 1000 (platform strftime behaviour, e.g.
`datetime(999,10,8)` formats as `999-10-08`) — unlike the `f"{y:04d}"` f-strings. -/
def strfDate (y m d : Nat) : String := ⟨pyDecimal y ++ '-' :: (zfill 2 m ++ '-' :: zfill 2 d)⟩

/-- The string `f"{y:04d}-{m:02d}"` used by the CTUIL month filter. -/
def fmtYM (y m : Nat) : String := ⟨zfill 4 y ++ '-' :: zfill 2 m⟩

/-- Python character slicing `s[:n]`. -/
def strTake (s : String) (n : Nat) : String := ⟨s.toList.take n⟩

/-- Python `str.lower` (ASCII range, which covers every string this pipeline builds). -/
def strLower (s : String) : String := ⟨s.toList.map Char.toLower⟩

/-- Python regex `\s` / `str.strip` whitespace class (ASCII part). -/
def isPyWs (c : Char) : Bool :=
  c == ' ' || c == '\t' || c == '\n' || c == '\r' || c == Char.ofNat 11 || c == Char.ofNat 12

/-- Python `str.strip()` on the character list. -/
def pyStripL (l : List Char) : List Char :=
  ((l.dropWhile isPyWs).reverse.dropWhile isPyWs).reverse

/-- Collapses every whitespace run to a single space; `prevWs` records whether the
previous character belonged to a run already collapsed. -/
def collapseGo : Bool → List Char → List Char
  | _, [] => []
  | prevWs, c :: cs =>
    if isPyWs c then
      if prevWs then collapseGo true cs else ' ' :: collapseGo true cs
    else c :: collapseGo false cs

/-- Models `re.sub(r"\s+", " ", s)` (ctuil.py `_date_cleaner.sub`). -/
def collapseWs (s : String) : String := ⟨collapseGo false s.toList⟩

/-- cerc.py `_clean`: `re.sub(r"\s+", " ", (s or "").strip())`. -/
def clean (s : String) : String := ⟨collapseGo false (pyStripL s.toList)⟩

/-- Lexicographic strict comparison of character lists by code point, which is
how Python compares strings. -/
def listLtB : List Char → List Char → Bool
  | [], [] => false
  | [], _ :: _ => true
  | _ :: _, [] => false
  | a :: as, b :: bs =>
    if a.toNat < b.toNat then true
    else if b.toNat < a.toNat then false
    else listLtB as bs

/-- Python `a < b` on strings. -/
def strLtB (a b : String) : Bool := listLtB a.toList b.toList

/-- Substring test, models Python `pat in text`. -/
def containsSub (pat : List Char) : List Char → Bool
  | [] => pat.isEmpty
  | c :: cs => pat.isPrefixOf (c :: cs) || containsSub pat cs

/-- Gregorian leap-year rule, as `datetime` implements it. -/
def isLeap (y : Nat) : Bool := (y % 4 == 0 && y % 100 != 0) || y % 400 == 0

/-- Days in a month, as `datetime` implements it. -/
def daysInMonth (y m : Nat) : Nat :=
  if m == 2 then (if isLeap y then 29 else 28)
  else if m == 4 || m == 6 || m == 9 || m == 11 then 30
  else 31

/-- Validity of `datetime(y, m, d)` (Python raises outside MINYEAR=1..MAXYEAR=9999
or outside the calendar). -/
def isValidDate (y m d : Nat) : Bool :=
  decide (1 ≤ y) && decide (y ≤ 9999) && decide (1 ≤ m) && decide (m ≤ 12)
    && decide (1 ≤ d) && decide (d ≤ daysInMonth y m)

/-- Models `datetime.fromisoformat` on the `YYYY-MM-DD` strings this pipeline builds
(anything else raises `ValueError`, modelled as `none`); returns (year, month, day). -/
def parseIsoDateL (l : List Char) : Option (Nat × Nat × Nat) :=
  match l with
  | [y1, y2, y3, y4, s1, m1, m2, s2, d1, d2] =>
    if s1 == '-' && s2 == '-' && [y1, y2, y3, y4, m1, m2, d1, d2].all Char.isDigit then
      let y := natOfDigits [y1, y2, y3, y4]
      let m := natOfDigits [m1, m2]
      let d := natOfDigits [d1, d2]
      if isValidDate y m d then some (y, m, d) else none
    else none
  | _ => none

/-- String wrapper for `parseIsoDateL`. -/
def parseIsoDate (s : String) : Option (Nat × Nat × Nat) := parseIsoDateL s.toList

/-- Greedily grab up to `max` leading digit characters, returning them and the rest. -/
def grabDigits : Nat → List Char → (List Char × List Char)
  | 0, l => ([], l)
  | _ + 1, [] => ([], [])
  | n + 1, c :: cs =>
    if c.isDigit then
      let (ds, r) := grabDigits n cs
      (c :: ds, r)
    else ([], c :: cs)

/-- Separator class of cerc.py `DATE_PAT`: the character class in the pattern. -/
def isSep (c : Char) : Bool := c == '.' || c == '/' || c == '-'

/-- Match of cerc.py `DATE_PAT` anchored at the head of `l`. The pattern is
day digits (1-2, greedy), separator, month digits (1-2, greedy), separator,
year digits (2-4, greedy); backtracking to a shorter digit run can never
succeed here because the following character would then be a digit, not a
separator, so the greedy-maximal reading below is exact. -/
def datePatMatchAt (l : List Char) : Option (Nat × Nat × Nat) :=
  let (ds, r1) := grabDigits 2 l
  if ds.isEmpty then none
  else
    match r1 with
    | c1 :: r2 =>
      if isSep c1 then
        let (ms, r3) := grabDigits 2 r2
        if ms.isEmpty then none
        else
          match r3 with
          | c2 :: r4 =>
            if isSep c2 then
              let (ys, _) := grabDigits 4 r4
              if ys.length < 2 then none
              else some (natOfDigits ds, natOfDigits ms, natOfDigits ys)
            else none
          | [] => none
      else none
    | [] => none

/-- `DATE_PAT.search`: leftmost match wins. -/
def datePatSearchL : List Char → Option (Nat × Nat × Nat)
  | [] => none
  | c :: cs =>
    match datePatMatchAt (c :: cs) with
    | some r => some r
    | none => datePatSearchL cs

/-- Generic first-occurrence deduplication loop with an explicit `seen` set,
exactly the shape of the loops in cerc.py `_dedupe` and ctuil.py `_extract_items`
(a Python `set` is modelled by a list used only through membership). -/
def dedupeAux {α κ : Type} [DecidableEq κ] (key : α → κ) : List κ → List α → List α
  | _, [] => []
  | seen, x :: xs =>
    if key x ∈ seen then dedupeAux key seen xs
    else x :: dedupeAux key (key x :: seen) xs

/-- The dedupe loops of both adapters, started with an empty `seen` set. -/
def dedupeByKey {α κ : Type} [DecidableEq κ] (key : α → κ) (xs : List α) : List α :=
  dedupeAux key [] xs

/-- Specification-level deduplication, following the spec's words: for each key,
keep only the first occurrence in input order. Used to compare the source's
`seen`-set loops against the specified behaviour. -/
def specDedupe {α κ : Type} [DecidableEq κ] (key : α → κ) : List α → List α
  | [] => []
  | x :: xs => x :: specDedupe key (xs.filter fun y => decide (key y ≠ key x))
termination_by l => l.length
decreasing_by
  simp only [List.length_cons]
  exact Nat.lt_succ_of_le (List.length_filter_le _ xs)

/-- Library boundary: `urllib.parse.urljoin`. URL resolution is outside the
verified logic (no claim depends on resolved URL values); modelled as: the empty
reference resolves to the base, any other reference is returned as given. -/
def urljoin (base ref : String) : String := if ref.isEmpty then base else ref

/-- JSON values as persisted by `json.dumps` and produced by `json.loads`
(numbers modelled as `Int`; object keys are strings). -/
inductive Json where
  | null : Json
  | bool : Bool → Json
  | num : Int → Json
  | str : String → Json
  | arr : List Json → Json
  | obj : List (String × Json) → Json

namespace Storage

/-- File store for `data/cache`: path to file content. A `none` content models a
file whose text is not valid JSON (`json.loads` raises); an absent path models a
missing file. -/
abbrev FileSys := List (String × Option Json)

/-- Path lookup (newest entry wins, see `fsWrite`). -/
def fsFind (fs : FileSys) (k : String) : Option (Option Json) :=
  (fs.find? fun e => e.fst == k).map fun e => e.snd

/-- `Path.write_text`: replaces the file at the path (lookup takes the newest entry). -/
def fsWrite (fs : FileSys) (k : String) (v : Option Json) : FileSys := (k, v) :: fs

/-- storage.py `_month_key`: `CACHE_DIR / f"{prefix}_{year:04d}_{month:02d}.json"`
(the constant directory part is dropped from the key). -/
def month_key (pfx : String) (year month : Nat) : String :=
  pfx ++ "_" ++ (⟨zfill 4 year⟩ : String) ++ "_" ++ (⟨zfill 2 month⟩ : String) ++ ".json"

/-- Python `dict.get(k, dflt)` on a JSON object's key/value list. -/
def jget (kvs : List (String × Json)) (k : String) (dflt : Json) : Json :=
  match kvs.find? fun e => e.fst == k with
  | some e => e.snd
  | none => dflt

/-- storage.py `read_month_snapshot`: returns `(payload, last_updated)` or `None`.
`None` results from: missing file; `json.loads` raising on invalid JSON; or the
loaded value not being a dict (`blob.get` raises `AttributeError`, caught by the
same `except`). -/
def read_month_snapshot (year month : Nat) (pfx : String) (fs : FileSys) :
    Option (Json × Json) :=
  match fsFind fs (month_key pfx year month) with
  | none => none
  | some none => none
  | some (some blob) =>
    match blob with
    | Json.obj kvs => some (jget kvs "payload" (Json.obj []), jget kvs "last_updated" (Json.str ""))
    | _ => none

/-- storage.py `write_month_snapshot`: persists
`{"last_updated": ist_now().isoformat(), "payload": payload}`. The IST timestamp
string computed at write time is passed in as `nowIso`. -/
def write_month_snapshot (year month : Nat) (payload : Json) (nowIso : String)
    (pfx : String) (fs : FileSys) : FileSys :=
  fsWrite fs (month_key pfx year month)
    (some (Json.obj [("last_updated", Json.str nowIso), ("payload", payload)]))

/-- storage.py `STALE_AFTER = timedelta(hours=3)`, in seconds. -/
def STALE_AFTER : Int := 3 * 3600

/-- storage.py `_parse_aware`: instants are modelled as `Int` seconds; a stored
string that `datetime.fromisoformat` cannot parse is modelled as `none`, for
which the function returns `ist_now()` (the current instant `now`). Timezone
coercion (`astimezone` / `replace(tzinfo=_IST)`) does not move the instant. -/
def parse_aware (now : Int) (p : Option Int) : Int := p.getD now

/-- storage.py `is_snapshot_stale`: `(ist_now() - dt) > STALE_AFTER`. The two
`ist_now()` calls of one invocation are modelled as the same instant `now`. -/
def is_snapshot_stale (now : Int) (p : Option Int) : Bool :=
  decide (now - parse_aware now p > STALE_AFTER)

end Storage

namespace Cerc

/-- An item dict built in cerc.py `_collect_listpage` / `_parse_hearing_pdf`. -/
structure CercItem where
  type : String
  title : String
  date : String
  url : String
deriving DecidableEq

/-- One anchor element scanned by cerc.py `_collect_listpage`. The fields hold the
results of the BeautifulSoup queries the source applies to the element:
`text` is `a.get_text(" ")`; `href` is `a.get("href")` (`none` when absent);
`parentText` is `a.find_parent().get_text(" ")` when a parent exists; `relevant`
is the truthiness of `RELEVANCE.search(title)`, the NSEFI keyword pre-filter,
modelled as an input bit because no claim under verification concerns it. -/
structure CercAnchor where
  text : String
  href : Option String
  parentText : Option String
  relevant : Bool
deriving DecidableEq

def CERC_BASE : String := "https://cercind.gov.in/"

/-- cerc.py `_norm_date`: first `d.m.y` / `d/m/y` / `d-m-y` match in the text; two-digit years
get 2000 added; an invalid calendar date (or no match) yields the fallback. -/
def norm_date (text fb : String) : String :=
  match datePatSearchL text.toList with
  | none => fb
  | some (d, m, y) =>
    let y := if y < 100 then 2000 + y else y
    if isValidDate y m d then strfDate y m d else fb

/-- cerc.py `_doc_link`: cleaned title and resolved href. -/
def doc_link (a : CercAnchor) : String × String :=
  (clean a.text, urljoin CERC_BASE (a.href.getD ""))

/-- The `type` field computed in `_collect_listpage` from the page url. -/
def typeOf (url : String) : String :=
  if containsSub "order".toList (strLower url).toList then "Orders"
  else if containsSub "rop".toList (strLower url).toList then "ROP"
  else if containsSub "draft".toList (strLower url).toList then "Draft Regulation"
  else "Regulation"

/-- Body of the `for a in soup.select(...)` loop of `_collect_listpage`: `none`
models `continue`. The month filter is the source's `try`/`except`: if
`datetime.fromisoformat(date_iso)` parses, keep the item only when its year and
month equal the requested ones; if it raises, the `except ... pass` keeps the
item. -/
def anchor_step (url : String) (year month : Nat) (a : CercAnchor) : Option CercItem :=
  let title := (doc_link a).fst
  let href := (doc_link a).snd
  if title.isEmpty || href.isEmpty then none
  else if !a.relevant then none
  else
    let context := clean (a.parentText.getD "")
    let date_iso := norm_date (context ++ " " ++ href) (fmtDate year month 1)
    let keep : Bool :=
      match parseIsoDate date_iso with
      | some (y, m, _) => y == year && m == month
      | none => true
    if keep then some { type := typeOf url, title := title, date := date_iso, url := href }
    else none

/-- cerc.py `_collect_listpage` over the page's scanned anchors. -/
def collect_listpage (url : String) (anchors : List CercAnchor) (year month : Nat) :
    List CercItem :=
  anchors.filterMap (anchor_step url year month)

/-- Stable descending insertion by date string: `x` is placed before the first
later element whose date is strictly smaller, hence after all equal dates. -/
def insertDesc (x : CercItem) : List CercItem → List CercItem
  | [] => [x]
  | y :: ys => if strLtB y.date x.date then x :: y :: ys else y :: insertDesc x ys

/-- Python `sorted(out, key=lambda x: x.get("date", ""), reverse=True)`:
a stable sort, descending by the date string. -/
def sortByDateDesc (xs : List CercItem) : List CercItem :=
  xs.foldl (fun acc x => insertDesc x acc) []

/-- cerc.py `_dedupe`: first-occurrence dedupe keyed on
`(title.lower(), date)`, then the stable descending date sort. -/
def dedupe (items : List CercItem) : List CercItem :=
  sortByDateDesc (dedupeByKey (fun it => (strLower it.title, it.date)) items)

end Cerc

namespace Ctuil

def CTUIL_NEWS_URL : String := "https://ctuil.in/latestnews"

/-- ctuil.py `UpdateItem` dataclass (field defaults as in the source). -/
structure UpdateItem where
  date : String
  title : String
  url : String
  type : String := "Update"
  source : String := "CTUIL"
deriving DecidableEq

/-- ctuil.py `_mk_abs`. -/
def mk_abs (href : Option String) : String :=
  match href with
  | none => CTUIL_NEWS_URL
  | some h => if h.isEmpty then CTUIL_NEWS_URL else urljoin CTUIL_NEWS_URL h

/-- ctuil.py `_MONTHS` dict. -/
def MONTHS : List (String × Nat) :=
  [("jan", 1), ("january", 1), ("feb", 2), ("february", 2), ("mar", 3), ("march", 3),
   ("apr", 4), ("april", 4), ("may", 5), ("jun", 6), ("june", 6), ("jul", 7), ("july", 7),
   ("aug", 8), ("august", 8), ("sep", 9), ("sept", 9), ("september", 9), ("oct", 10),
   ("october", 10), ("nov", 11), ("november", 11), ("dec", 12), ("december", 12)]

/-- Python `_MONTHS.get(s)`. -/
def monthsGet (s : String) : Option Nat := (MONTHS.find? fun e => e.fst == s).map fun e => e.snd

/-- ctuil.py `_coerce_date`: strip the day text, keep its digits (empty becomes
`"1"`), look the month text up by 3-letter prefix then exactly, and build
`datetime(year, m, d)`; an invalid date yields `None`. -/
def coerce_date (dayText monText : String) (year : Nat) : Option String :=
  let dayT : String := ⟨pyStripL dayText.toList⟩
  let monT : String := strLower ⟨pyStripL monText.toList⟩
  let digitStr : List Char := dayT.toList.filter Char.isDigit
  let d := natOfDigits (if digitStr.isEmpty then ['1'] else digitStr)
  let m? :=
    match monthsGet (strTake monT 3) with
    | some m => some m
    | none => monthsGet monT
  match m? with
  | none => none
  | some m => if isValidDate year m d then some (strfDate year m d) else none

/-- Month-name alternatives of the "dd Mon" sniffing regex, in pattern order. -/
def monthAlts : List String :=
  ["Jan", "Feb", "Mar", "Apr", "May", "Jun", "Jul", "Aug", "Sep", "Sept", "Oct", "Nov", "Dec"]

/-- Case-insensitive literal prefix match returning the matched source text. -/
def ciPrefixMatch : List Char → List Char → Option (List Char × List Char)
  | [], r => some ([], r)
  | _ :: _, [] => none
  | a :: as, c :: cs =>
    if Char.toLower a == Char.toLower c then
      match ciPrefixMatch as cs with
      | some (m, r) => some (c :: m, r)
      | none => none
    else none

/-- First alternative (in pattern order) matching a prefix of `l`; returns the
matched text, as `m.group(2)` does. -/
def matchAltsAux : List String → List Char → Option (List Char)
  | [], _ => none
  | alt :: rest, l =>
    match ciPrefixMatch alt.toList l with
    | some (m, _) => some m
    | none => matchAltsAux rest l

/-- Match of the sniffing regex `(\d{1,2})\s+(Jan|...|Dec)` (case-insensitive)
anchored at the head of `l`: greedy day digits, at least one whitespace, then a
month alternative; as with `DATE_PAT`, backtracking to shorter runs can never
succeed, so the greedy-maximal reading is exact. -/
def sniffMatchAt (l : List Char) : Option (List Char × List Char) :=
  let (ds, r1) := grabDigits 2 l
  if ds.isEmpty then none
  else
    if (r1.takeWhile isPyWs).isEmpty then none
    else
      match matchAltsAux monthAlts (r1.dropWhile isPyWs) with
      | some mtxt => some (ds, mtxt)
      | none => none

/-- `re.search` of the sniffing regex: leftmost match, returning
`(m.group(1), m.group(2))`. -/
def sniffSearchL : List Char → Option (List Char × List Char)
  | [] => none
  | c :: cs =>
    match sniffMatchAt (c :: cs) with
    | some r => some r
    | none => sniffSearchL cs

/-- One candidate row of ctuil.py `_extract_items`. The fields hold the results
of the BeautifulSoup queries the source applies to the row: `dayText`/`monText`
are the texts of `r.select_one(".day, ...")` / `r.select_one(".mon, ...")` when
those elements exist; `anchorText` is `title_a.get_text(" ", strip=True)` for the
first `<a>` when one exists; `anchorHref` is `getattr(title_a, "href", None)`
(for a real tag this is `title_a.find("href")`, an `<href>` child element, so in
practice `none`); `titleText` is the text of `r.select_one("h3, h4, .title")`;
`rowText` is `r.get_text(" ", strip=True)`. -/
structure CtuilRow where
  dayText : Option String
  monText : Option String
  anchorText : Option String
  anchorHref : Option String
  titleText : Option String
  rowText : String
deriving DecidableEq

/-- The date computation of `_extract_items` for one row (ctuil.py lines 110-119):
coerce the day/month badge texts when both elements exist, else sniff "dd Mon"
from the row's collapsed text. `none` means no date was found. -/
def row_date_iso (r : CtuilRow) (year : Nat) : Option String :=
  match r.dayText, r.monText with
  | some dTxt, some mTxt => coerce_date dTxt mTxt year
  | _, _ =>
    match sniffSearchL (collapseWs r.rowText).toList with
    | some (dChars, mChars) => coerce_date ⟨dChars⟩ ⟨mChars⟩ year
    | none => none

/-- Body of the row loop of `_extract_items`: `ok none` models `continue`. A row
with no anchor but with an `h3`/`h4`/`.title` element builds the `Dummy` object
and then calls `title_a.get_text(" ", strip=True)`, which `Dummy` does not
define: that raises `AttributeError` out of the whole extraction (modelled as
`Except.error`). A row with no date gets the fallback
`f"{year:04d}-{month:02d}-01"`, and the month filter keeps exactly the rows
whose `date_iso[:7]` equals `f"{year:04d}-{month:02d}"`. -/
def rowStep (r : CtuilRow) (year month : Nat) : Except String (Option UpdateItem) :=
  match r.anchorText with
  | some t =>
    let href := mk_abs r.anchorHref
    let date_iso := (row_date_iso r year).getD (fmtDate year month 1)
    if strTake date_iso 7 != fmtYM year month then Except.ok none
    else Except.ok (some { date := date_iso, title := t, url := href })
  | none =>
    match r.titleText with
    | some _ => Except.error "AttributeError: Dummy object has no attribute get_text"
    | none => Except.ok none

/-- The row loop of `_extract_items` over all selected rows; the first raising
row aborts the whole extraction, as in Python. -/
def processRows (year month : Nat) : List CtuilRow → Except String (List UpdateItem)
  | [] => Except.ok []
  | r :: rs =>
    match rowStep r year month with
    | Except.error e => Except.error e
    | Except.ok none => processRows year month rs
    | Except.ok (some it) =>
      match processRows year month rs with
      | Except.error e => Except.error e
      | Except.ok tl => Except.ok (it :: tl)

/-- One anchor of the last-resort `soup.select("a[href]")` fallback of
`_extract_items`: `text` is `a.get_text(" ", strip=True)`, `href` is
`a.get("href")` (present by the selector). -/
structure CtuilDocAnchor where
  text : String
  href : String
deriving DecidableEq

/-- ctuil.py `_extract_items` (after the selector fallback chain produced `rows`
and, for the last-resort branch, the document's `a[href]` anchors): run the row
loop; if it produced nothing, take the first 20 non-empty-text anchors dated the
first of the month; finally dedupe by `(title, url)` keeping first occurrences. -/
def extract_items (rows : List CtuilRow) (docAnchors : List CtuilDocAnchor)
    (year month : Nat) : Except String (List UpdateItem) :=
  match processRows year month rows with
  | Except.error e => Except.error e
  | Except.ok out =>
    let out2 :=
      if out.isEmpty then
        (docAnchors.filterMap fun a =>
          if a.text.isEmpty then none
          else some ({ date := fmtDate year month 1, title := a.text,
                       url := mk_abs (some a.href) } : UpdateItem)).take 20
      else out
    Except.ok (dedupeByKey (fun it => (it.title, it.url)) out2)

end Ctuil

/-- publish_month.py `run_scraper_job`, for target month `(yyyy, mm)` (taken from
`ist_now()` by the script) and with the CTUIL harvest result and the write-time
timestamp passed in. The source does `snap = read_month_snapshot(yyyy, mm) or {}`
and then `snap.setdefault("central", {})["CTUIL"] = ctuil_items`: when a snapshot
exists, `read_month_snapshot` returns a (truthy) tuple, and `.setdefault` on a
tuple raises `AttributeError`, which the `__main__` wrapper turns into exit 1;
that exception is modelled as `Except.error`. When no snapshot exists, `snap`
starts as `{}` and becomes `{"central": {"CTUIL": ctuil_items}}`, which is
written back. -/
def run_scraper_job (yyyy mm : Nat) (ctuil_items : Json) (nowIso : String)
    (fs : Storage.FileSys) : Except String Storage.FileSys :=
  match Storage.read_month_snapshot yyyy mm "ctuil" fs with
  | some _ => Except.error "AttributeError: tuple object has no attribute setdefault"
  | none =>
    let snap := Json.obj [("central", Json.obj [("CTUIL", ctuil_items)])]
    Except.ok (Storage.write_month_snapshot yyyy mm snap nowIso "ctuil" fs)

/-! ### Concrete inputs used as test vectors for the claims -/

/-- A CTUIL candidate row whose text contains no parseable date token. -/
def c1row : Ctuil.CtuilRow :=
  { dayText := none, monText := none, anchorText := some "Grid update",
    anchorHref := none, titleText := none, rowText := "Grid update" }

/-- A CTUIL candidate row whose row text carries the textual date token. -/
def c3row : Ctuil.CtuilRow :=
  { dayText := none, monText := none, anchorText := some "x",
    anchorHref := none, titleText := none, rowText := "08 Oct 2025" }

/-- The snapshot path for October 2025 under the default prefix. -/
def c2key : String := Storage.month_key "ctuil" 2025 10

/-- A store already holding a snapshot for October 2025 (with a CERC category). -/
def c2fs : Storage.FileSys :=
  [(c2key, some (Json.obj
    [("last_updated", Json.str "2025-10-05T00:00:00+05:30"),
     ("payload", Json.obj [("central", Json.obj [("CERC", Json.arr [])])])]))]

/-- Two CERC items with the same title and date but different urls. -/
def c4a : Cerc.CercItem :=
  { type := "Regulation", title := "Solar tender", date := "2025-10-08",
    url := "https://cercind.gov.in/a.pdf" }

def c4b : Cerc.CercItem :=
  { type := "Regulation", title := "Solar tender", date := "2025-10-08",
    url := "https://cercind.gov.in/b.pdf" }

/-- Two CERC items with equal dates and ascending titles. -/
def c5a : Cerc.CercItem :=
  { type := "Regulation", title := "Alpha solar notice", date := "2025-10-08",
    url := "https://cercind.gov.in/x.pdf" }

def c5b : Cerc.CercItem :=
  { type := "Regulation", title := "Beta solar notice", date := "2025-10-08",
    url := "https://cercind.gov.in/y.pdf" }

/-- A CERC anchor whose context carries an in-month dotted date. -/
def c6anchor : Cerc.CercAnchor :=
  { text := "Solar order 08.10.2025", href := some "https://cercind.gov.in/ord.pdf",
    parentText := some "Solar order 08.10.2025", relevant := true }

/-- The item `_collect_listpage` produces from `c6anchor` for October 2025. -/
def c6item : Cerc.CercItem :=
  { type := "Orders", title := "Solar order 08.10.2025", date := "2025-10-08",
    url := "https://cercind.gov.in/ord.pdf" }

/-- A CERC anchor whose context carries a three-digit-year dotted date token. -/
def c6badAnchor : Cerc.CercAnchor :=
  { text := "Solar tariff 8.10.999", href := some "https://cercind.gov.in/old.pdf",
    parentText := some "Solar tariff 8.10.999", relevant := true }

/-! ### Decimal formatting and parsing lemmas -/

theorem charVal_digitChar (d : Nat) (h : d < 10) : charVal (Nat.digitChar d) = d := by
  interval_cases d <;> rfl

theorem isDigit_digitChar (d : Nat) (h : d < 10) : (Nat.digitChar d).isDigit = true := by
  interval_cases d <;> rfl

theorem pyDecimalAux_spec :
    ∀ (fuel n : Nat) (acc : List Char), n ≤ fuel →
      pyDecimalAux fuel n acc = ((Nat.digits 10 n).reverse.map Nat.digitChar) ++ acc := by
  intro fuel
  induction fuel with
  | zero =>
    intro n acc hn
    have : n = 0 := Nat.le_zero.mp hn
    subst this
    simp [pyDecimalAux]
  | succ fuel ih =>
    intro n acc hn
    by_cases h0 : n = 0
    · subst h0; simp [pyDecimalAux]
    · have hpos : 0 < n := Nat.pos_of_ne_zero h0
      have hdiv : n / 10 ≤ fuel := by
        have := Nat.div_lt_self hpos (by norm_num : 1 < 10)
        omega
      rw [show pyDecimalAux (fuel + 1) n acc
            = pyDecimalAux fuel (n / 10) (Nat.digitChar (n % 10) :: acc) by
            simp [pyDecimalAux, h0]]
      rw [ih (n / 10) _ hdiv, Nat.digits_def' (by norm_num : 1 < 10) hpos]
      simp

theorem pyDecimal_eq_digits (n : Nat) (h : n ≠ 0) :
    pyDecimal n = (Nat.digits 10 n).reverse.map Nat.digitChar := by
  simp [pyDecimal, h, pyDecimalAux_spec n n [] (le_refl n)]

theorem natOfDigits_map_digitChar (l : List Nat) (h : ∀ d ∈ l, d < 10) :
    natOfDigits (l.reverse.map Nat.digitChar) = Nat.ofDigits 10 l := by
  induction l with
  | nil => rfl
  | cons x l ih =>
    have hx : x < 10 := h x (List.mem_cons_self x l)
    have hl : ∀ d ∈ l, d < 10 := fun d hd => h d (List.mem_cons_of_mem x hd)
    simp only [List.reverse_cons, List.map_append, List.map_cons, List.map_nil]
    simp only [natOfDigits, List.foldl_append, List.foldl_cons, List.foldl_nil]
    rw [show List.foldl (fun a c => 10 * a + charVal c) 0 (l.reverse.map Nat.digitChar)
          = natOfDigits (l.reverse.map Nat.digitChar) from rfl, ih hl,
        charVal_digitChar x hx, Nat.ofDigits_cons]
    ring

theorem natOfDigits_pyDecimal (n : Nat) : natOfDigits (pyDecimal n) = n := by
  by_cases h : n = 0
  · subst h; rfl
  · rw [pyDecimal_eq_digits n h,
        natOfDigits_map_digitChar _ (fun d hd => Nat.digits_lt_base (by norm_num) hd),
        Nat.ofDigits_digits]

theorem natOfDigits_zfill (w n : Nat) : natOfDigits (zfill w n) = n := by
  have hz : ∀ (k : Nat), List.foldl (fun a c => 10 * a + charVal c) 0
      (List.replicate k '0') = 0 := by
    intro k
    induction k with
    | zero => rfl
    | succ k ih => simpa [List.replicate_succ, charVal] using ih
  simp only [zfill, natOfDigits, List.foldl_append, hz]
  exact natOfDigits_pyDecimal n

theorem length_pyDecimal_le (w n : Nat) (hw : 1 ≤ w) (h : n < 10 ^ w) :
    (pyDecimal n).length ≤ w := by
  by_cases h0 : n = 0
  · subst h0; simpa [pyDecimal] using hw
  · rw [pyDecimal_eq_digits n h0]
    simp only [List.length_map, List.length_reverse]
    rw [Nat.digits_len 10 n (by norm_num) h0]
    have := Nat.log_lt_of_lt_pow h0 h
    omega

theorem length_zfill (w n : Nat) (hw : 1 ≤ w) (h : n < 10 ^ w) :
    (zfill w n).length = w := by
  have hle := length_pyDecimal_le w n hw h
  simp only [zfill, List.length_append, List.length_replicate]
  omega

theorem digits_pyDecimal (n : Nat) : ∀ c ∈ pyDecimal n, c.isDigit = true := by
  by_cases h0 : n = 0
  · subst h0; intro c hc; simp [pyDecimal] at hc; subst hc; rfl
  · rw [pyDecimal_eq_digits n h0]
    intro c hc
    simp only [List.mem_map, List.mem_reverse] at hc
    obtain ⟨d, hd, rfl⟩ := hc
    exact isDigit_digitChar d (Nat.digits_lt_base (by norm_num) hd)

theorem digits_zfill (w n : Nat) : ∀ c ∈ zfill w n, c.isDigit = true := by
  intro c hc
  simp only [zfill, List.mem_append, List.mem_replicate] at hc
  rcases hc with ⟨_, rfl⟩ | hc
  · rfl
  · exact digits_pyDecimal n c hc

theorem take_append_len {α : Type} (A B : List α) (n : Nat) :
    (A ++ B).take (A.length + n) = A ++ B.take n := by
  induction A with
  | nil => simp
  | cons a A ih => simpa [List.take, Nat.succ_add] using ih

theorem exists_len_four {α : Type} (L : List α) (h : L.length = 4) :
    ∃ a b c d, L = [a, b, c, d] := by
  match L, h with
  | [a, b, c, d], _ => exact ⟨a, b, c, d, rfl⟩

theorem exists_len_two {α : Type} (L : List α) (h : L.length = 2) :
    ∃ a b, L = [a, b] := by
  match L, h with
  | [a, b], _ => exact ⟨a, b, rfl⟩

theorem daysInMonth_le_31 (y m : Nat) : daysInMonth y m ≤ 31 := by
  unfold daysInMonth
  split_ifs <;> omega

theorem one_le_daysInMonth (y m : Nat) : 1 ≤ daysInMonth y m := by
  unfold daysInMonth
  split_ifs <;> omega

theorem isValidDate_bounds {y m d : Nat} (h : isValidDate y m d = true) :
    1 ≤ y ∧ y ≤ 9999 ∧ 1 ≤ m ∧ m ≤ 12 ∧ 1 ≤ d ∧ d ≤ 31 := by
  simp only [isValidDate, Bool.and_eq_true, decide_eq_true_eq] at h
  have := daysInMonth_le_31 y m
  omega

theorem isValidDate_first {y m : Nat} (hy1 : 1 ≤ y) (hy : y ≤ 9999)
    (hm1 : 1 ≤ m) (hm : m ≤ 12) : isValidDate y m 1 = true := by
  have := one_le_daysInMonth y m
  simp only [isValidDate, Bool.and_eq_true, decide_eq_true_eq]
  omega

/-- Round trip: parsing back a date string the pipeline formatted recovers the
components (the key fact making the CERC month filter exact). -/
theorem parseIsoDate_fmtDate {y m d : Nat} (h : isValidDate y m d = true) :
    parseIsoDate (fmtDate y m d) = some (y, m, d) := by
  obtain ⟨hy1, hy, hm1, hm, hd1, hd⟩ := isValidDate_bounds h
  have hY : (zfill 4 y).length = 4 := length_zfill 4 y (by norm_num) (by omega)
  have hM : (zfill 2 m).length = 2 := length_zfill 2 m (by norm_num) (by omega)
  have hD : (zfill 2 d).length = 2 := length_zfill 2 d (by norm_num) (by omega)
  obtain ⟨y1, y2, y3, y4, hYe⟩ := exists_len_four _ hY
  obtain ⟨m1, m2, hMe⟩ := exists_len_two _ hM
  obtain ⟨d1, d2, hDe⟩ := exists_len_two _ hD
  have hYdig := digits_zfill 4 y
  have hMdig := digits_zfill 2 m
  have hDdig := digits_zfill 2 d
  rw [hYe] at hYdig
  rw [hMe] at hMdig
  rw [hDe] at hDdig
  have hYv : natOfDigits [y1, y2, y3, y4] = y := by rw [← hYe]; exact natOfDigits_zfill 4 y
  have hMv : natOfDigits [m1, m2] = m := by rw [← hMe]; exact natOfDigits_zfill 2 m
  have hDv : natOfDigits [d1, d2] = d := by rw [← hDe]; exact natOfDigits_zfill 2 d
  have hlist : (fmtDate y m d).toList
      = [y1, y2, y3, y4, '-', m1, m2, '-', d1, d2] := by
    show zfill 4 y ++ '-' :: (zfill 2 m ++ '-' :: zfill 2 d) = _
    rw [hYe, hMe, hDe]
    rfl
  rw [parseIsoDate, hlist]
  simp only [parseIsoDateL, List.all_cons, List.all_nil]
  rw [hYdig y1 (by simp), hYdig y2 (by simp), hYdig y3 (by simp), hYdig y4 (by simp),
      hMdig m1 (by simp), hMdig m2 (by simp), hDdig d1 (by simp), hDdig d2 (by simp)]
  simp only [beq_self_eq_true, Bool.and_self, Bool.and_true, Bool.true_and, if_true]
  rw [hYv, hMv, hDv]
  simp [h]

/-- Taking the first seven characters of a formatted date gives the
`f"{y:04d}-{m:02d}"` month prefix. -/
theorem strTake_fmtDate {y m : Nat} (d : Nat) (hy : y ≤ 9999) (hm : m ≤ 99) :
    strTake (fmtDate y m d) 7 = fmtYM y m := by
  have hY : (zfill 4 y).length = 4 := length_zfill 4 y (by norm_num) (by omega)
  have hM : (zfill 2 m).length = 2 := length_zfill 2 m (by norm_num) (by omega)
  show (⟨(zfill 4 y ++ '-' :: (zfill 2 m ++ '-' :: zfill 2 d)).take 7⟩ : String) = _
  have h7 : 7 = (zfill 4 y).length + 3 := by omega
  rw [h7, take_append_len]
  have h3 : ('-' :: (zfill 2 m ++ '-' :: zfill 2 d)).take 3
      = '-' :: (zfill 2 m ++ '-' :: zfill 2 d).take 2 := rfl
  have h2 : (zfill 2 m ++ '-' :: zfill 2 d).take 2 = zfill 2 m := by
    have := take_append_len (zfill 2 m) ('-' :: zfill 2 d) 0
    rw [hM] at this
    simpa using this
  rw [h3, h2]
  rfl

/-! ### String comparison bridge -/

theorem char_eq_of_toNat_eq {a b : Char} (h : a.toNat = b.toNat) : a = b :=
  Char.ofNat_toNat a ▸ Char.ofNat_toNat b ▸ congrArg Char.ofNat h

theorem listLtB_iff (a : List Char) : ∀ b : List Char, listLtB a b = true ↔ a < b := by
  induction a with
  | nil =>
    intro b
    cases b with
    | nil => exact ⟨fun h => (nomatch h), fun h => (nomatch h)⟩
    | cons b bs => exact ⟨fun _ => List.Lex.nil, fun _ => rfl⟩
  | cons a as ih =>
    intro b
    cases b with
    | nil => exact ⟨fun h => (nomatch h), fun h => (nomatch h)⟩
    | cons b bs =>
      by_cases hab : a.toNat < b.toNat
      · have hab' : a < b := hab
        exact ⟨fun _ => List.Lex.rel hab', fun _ => by simp [listLtB, hab]⟩
      · by_cases hba : b.toNat < a.toNat
        · have hba' : b < a := hba
          constructor
          · intro h
            rw [show listLtB (a :: as) (b :: bs) = false by simp [listLtB, hab, hba]] at h
            exact nomatch h
          · intro h
            exfalso
            cases h with
            | cons h => exact lt_irrefl a hba'
            | rel h => exact lt_asymm h hba'
        · have heq : a = b := char_eq_of_toNat_eq (by omega)
          subst heq
          have hunf : listLtB (a :: as) (a :: bs) = listLtB as bs := by
            simp [listLtB, hab]
          rw [hunf, ih bs]
          constructor
          · intro h; exact List.Lex.cons h
          · intro h
            cases h with
            | cons h => exact h
            | rel h => exact absurd h (lt_irrefl a)

theorem strLtB_iff (a b : String) : strLtB a b = true ↔ a < b := by
  rw [String.lt_iff_toList_lt]
  exact listLtB_iff a.toList b.toList

theorem strLtB_false_iff (a b : String) : strLtB a b = false ↔ b ≤ a := by
  rw [← Bool.not_eq_true, strLtB_iff]
  exact not_lt

/-! ### Date normalizer provenance -/

/-- Every string `_norm_date` returns is either the fallback or an
strftime-formatted valid date. -/
theorem norm_date_cases (t fb : String) :
    Cerc.norm_date t fb = fb
    ∨ ∃ y m d, isValidDate y m d = true ∧ Cerc.norm_date t fb = strfDate y m d := by
  unfold Cerc.norm_date
  match datePatSearchL t.toList with
  | none => exact Or.inl rfl
  | some (d, m, y) =>
    by_cases hv : isValidDate (if y < 100 then 2000 + y else y) m d = true
    · exact Or.inr ⟨(if y < 100 then 2000 + y else y), m, d, hv, by simp [hv]⟩
    · simp only [Bool.not_eq_true] at hv
      simp [hv]

/-- For four-digit years the strftime output coincides with the zero-padded
f-string format. -/
theorem strfDate_eq_fmtDate {y : Nat} (m d : Nat) (h1 : 1000 ≤ y) (h2 : y ≤ 9999) :
    strfDate y m d = fmtDate y m d := by
  have hne : y ≠ 0 := by omega
  have hle : (pyDecimal y).length ≤ 4 := length_pyDecimal_le 4 y (by norm_num) (by omega)
  have hge : 4 ≤ (pyDecimal y).length := by
    rw [pyDecimal_eq_digits y hne]
    simp only [List.length_map, List.length_reverse]
    rw [Nat.digits_len 10 y (by norm_num) hne]
    have := Nat.le_log_of_pow_le (by norm_num : 1 < 10) (show 10 ^ 3 ≤ y by omega)
    omega
  have hlen : (pyDecimal y).length = 4 := le_antisymm hle hge
  have hz : zfill 4 y = pyDecimal y := by
    rw [zfill, hlen]
    simp
  show (⟨pyDecimal y ++ _⟩ : String) = ⟨zfill 4 y ++ _⟩
  rw [hz]

/-! ### Deduplication lemmas -/

theorem dedupeAux_sublist {α κ : Type} [DecidableEq κ] (key : α → κ) :
    ∀ (xs : List α) (seen : List κ), List.Sublist (dedupeAux key seen xs) xs := by
  intro xs
  induction xs with
  | nil => intro seen; simp [dedupeAux]
  | cons x xs ih =>
    intro seen
    by_cases h : key x ∈ seen
    · simp only [dedupeAux, if_pos h]
      exact List.Sublist.cons x (ih seen)
    · simp only [dedupeAux, if_neg h]
      exact List.Sublist.cons₂ x (ih (key x :: seen))

theorem mem_of_mem_dedupeByKey {α κ : Type} [DecidableEq κ] {key : α → κ}
    {xs : List α} {a : α} (h : a ∈ dedupeByKey key xs) : a ∈ xs :=
  (dedupeAux_sublist key xs []).mem h

theorem dedupeAux_eq_spec {α κ : Type} [DecidableEq κ] (key : α → κ) :
    ∀ (xs : List α) (seen : List κ),
      dedupeAux key seen xs
        = specDedupe key (xs.filter fun y => decide (key y ∉ seen)) := by
  intro xs
  induction xs with
  | nil => intro seen; simp [dedupeAux, specDedupe]
  | cons x xs ih =>
    intro seen
    by_cases h : key x ∈ seen
    · have hd : decide (key x ∉ seen) = false := by simp [h]
      simp only [dedupeAux, if_pos h, List.filter_cons, hd, ih seen]
      simp
    · have hd : decide (key x ∉ seen) = true := by simp [h]
      simp only [dedupeAux, if_neg h, List.filter_cons, hd, ih (key x :: seen)]
      simp only [if_true]
      rw [specDedupe, List.filter_filter]
      congr 1
      congr 1
      apply List.filter_congr
      intro y _
      cases hxy : decide (key y = key x) <;> cases hs : decide (key y ∈ seen) <;>
        simp_all [List.mem_cons]

/-- The `seen`-set dedupe loops implement exactly the specified
keep-first-occurrence-of-each-key behaviour. -/
theorem dedupeByKey_eq_spec {α κ : Type} [DecidableEq κ] (key : α → κ) (xs : List α) :
    dedupeByKey key xs = specDedupe key xs := by
  rw [dedupeByKey, dedupeAux_eq_spec key xs []]
  congr 1
  simp

/-! ### Sorting lemmas -/

theorem mem_insertDesc {x a : Cerc.CercItem} :
    ∀ {l : List Cerc.CercItem}, a ∈ Cerc.insertDesc x l ↔ a = x ∨ a ∈ l := by
  intro l
  induction l with
  | nil => simp [Cerc.insertDesc]
  | cons y ys ih =>
    by_cases h : strLtB y.date x.date = true
    · simp [Cerc.insertDesc, h]
    · simp only [Bool.not_eq_true] at h
      simp only [Cerc.insertDesc, h, Bool.false_eq_true, if_false, List.mem_cons, ih]
      tauto

theorem pairwise_insertDesc (x : Cerc.CercItem) :
    ∀ (l : List Cerc.CercItem),
      List.Pairwise (fun a b => b.date ≤ a.date) l →
      List.Pairwise (fun a b => b.date ≤ a.date) (Cerc.insertDesc x l) := by
  intro l
  induction l with
  | nil => intro _; simp [Cerc.insertDesc]
  | cons y ys ih =>
    intro hp
    rcases List.pairwise_cons.mp hp with ⟨hy, hys⟩
    by_cases h : strLtB y.date x.date = true
    · have hyx : y.date < x.date := (strLtB_iff _ _).mp h
      simp only [Cerc.insertDesc, h, if_true]
      refine List.pairwise_cons.mpr ⟨?_, hp⟩
      intro z hz
      rcases List.mem_cons.mp hz with rfl | hz
      · exact le_of_lt hyx
      · exact le_trans (hy z hz) (le_of_lt hyx)
    · have hxy : x.date ≤ y.date := by
        rw [Bool.not_eq_true] at h
        exact (strLtB_false_iff _ _).mp h
      simp only [Cerc.insertDesc, h, Bool.false_eq_true, if_false]
      refine List.pairwise_cons.mpr ⟨?_, ih hys⟩
      intro z hz
      rcases mem_insertDesc.mp hz with rfl | hz
      · exact hxy
      · exact hy z hz

theorem pairwise_sortByDateDesc (xs : List Cerc.CercItem) :
    List.Pairwise (fun a b => b.date ≤ a.date) (Cerc.sortByDateDesc xs) := by
  suffices h : ∀ (xs acc : List Cerc.CercItem),
      List.Pairwise (fun a b => b.date ≤ a.date) acc →
      List.Pairwise (fun a b => b.date ≤ a.date)
        (xs.foldl (fun acc x => Cerc.insertDesc x acc) acc) by
    exact h xs [] List.Pairwise.nil
  intro xs
  induction xs with
  | nil => intro acc hacc; simpa using hacc
  | cons x xs ih =>
    intro acc hacc
    simpa using ih (Cerc.insertDesc x acc) (pairwise_insertDesc x acc hacc)

/-! ### Month-filter lemmas -/

/-- A date string the pipeline built (fallback or strftime-formatted valid date)
that survives the CERC keep test either has the requested month prefix, or is an
unpadded sub-1000-year date: for those `fromisoformat` raises, the `except: pass`
keeps the item, and the month check never runs. -/
theorem keep_date_month {year month : Nat} (hy1 : 1 ≤ year) (hy : year ≤ 9999)
    (hm1 : 1 ≤ month) (hm : month ≤ 12) (date_iso : String)
    (hprov : date_iso = fmtDate year month 1
      ∨ ∃ y m d, isValidDate y m d = true ∧ date_iso = strfDate y m d)
    (hkeep : (match parseIsoDate date_iso with
              | some (y, m, _) => y == year && m == month
              | none => true) = true) :
    strTake date_iso 7 = fmtYM year month
    ∨ ∃ y m d, isValidDate y m d = true ∧ y < 1000 ∧ date_iso = strfDate y m d := by
  rcases hprov with hfb | ⟨y, m, d, hv, heq⟩
  · left
    rw [hfb]
    exact strTake_fmtDate 1 hy (by omega)
  · by_cases hsmall : y < 1000
    · exact Or.inr ⟨y, m, d, hv, hsmall, heq⟩
    · left
      have hb := isValidDate_bounds hv
      have heqf : date_iso = fmtDate y m d := by
        rw [heq]
        exact strfDate_eq_fmtDate m d (by omega) (by omega)
      rw [heqf] at hkeep ⊢
      rw [parseIsoDate_fmtDate hv] at hkeep
      simp only [Bool.and_eq_true, beq_iff_eq] at hkeep
      obtain ⟨rfl, rfl⟩ := hkeep
      exact strTake_fmtDate d hy (by omega)

/-- Every item `_collect_listpage` keeps is dated in the requested month, unless
its date came from a three-digit-year token (whose unpadded strftime string
escapes the month check through `except: pass`). -/
theorem anchor_step_month {url : String} {year month : Nat} {a : Cerc.CercAnchor}
    {it : Cerc.CercItem} (hy1 : 1 ≤ year) (hy : year ≤ 9999) (hm1 : 1 ≤ month)
    (hm : month ≤ 12) (h : Cerc.anchor_step url year month a = some it) :
    strTake it.date 7 = fmtYM year month
    ∨ ∃ y m d, isValidDate y m d = true ∧ y < 1000 ∧ it.date = strfDate y m d := by
  simp only [Cerc.anchor_step] at h
  split at h
  · exact absurd h (by simp)
  · split at h
    · exact absurd h (by simp)
    · split at h
      · next hkeep =>
        simp only [Option.some.injEq] at h
        subst h
        exact keep_date_month hy1 hy hm1 hm _ (norm_date_cases _ _) hkeep
      · exact absurd h (by simp)

/-- The kept branch of the CTUIL row loop only emits items whose date string has
the requested month prefix (that is literally the filter's condition). -/
theorem rowStep_some_prefix {r : Ctuil.CtuilRow} {year month : Nat}
    {it : Ctuil.UpdateItem} (h : Ctuil.rowStep r year month = Except.ok (some it)) :
    strTake it.date 7 = fmtYM year month := by
  simp only [Ctuil.rowStep] at h
  split at h
  · next t hat =>
    split at h
    · exact absurd h (by simp)
    · next hff =>
      have hd : strTake ((Ctuil.row_date_iso r year).getD (fmtDate year month 1)) 7
          = fmtYM year month := by
        simpa using hff
      simp only [Except.ok.injEq, Option.some.injEq] at h
      subst h
      exact hd
  · split at h
    · exact absurd h (by simp)
    · exact absurd h (by simp)

theorem processRows_prefix (year month : Nat) :
    ∀ (rows : List Ctuil.CtuilRow) (out : List Ctuil.UpdateItem),
      Ctuil.processRows year month rows = Except.ok out →
      ∀ it ∈ out, strTake it.date 7 = fmtYM year month := by
  intro rows
  induction rows with
  | nil =>
    intro out h it hit
    simp only [Ctuil.processRows, Except.ok.injEq] at h
    subst h
    exact absurd hit (List.not_mem_nil it)
  | cons r rs ih =>
    intro out h it hit
    simp only [Ctuil.processRows] at h
    split at h
    · exact absurd h (by simp)
    · exact ih out h it hit
    · next it0 hstep =>
      split at h
      · exact absurd h (by simp)
      · next tl htl =>
        simp only [Except.ok.injEq] at h
        subst h
        rcases List.mem_cons.mp hit with rfl | hit'
        · exact rowStep_some_prefix hstep
        · exact ih tl htl it hit'

/-- Every item of a successful CTUIL extraction is dated in the requested month. -/
theorem extract_items_prefix {rows : List Ctuil.CtuilRow}
    {docAnchors : List Ctuil.CtuilDocAnchor} {year month : Nat}
    {items : List Ctuil.UpdateItem} (hy : year ≤ 9999) (hm : month ≤ 99)
    (h : Ctuil.extract_items rows docAnchors year month = Except.ok items) :
    ∀ it ∈ items, strTake it.date 7 = fmtYM year month := by
  intro it hit
  simp only [Ctuil.extract_items] at h
  split at h
  · exact absurd h (by simp)
  · next out hout =>
    simp only [Except.ok.injEq] at h
    subst h
    have hmem := mem_of_mem_dedupeByKey hit
    by_cases he : out.isEmpty
    · rw [if_pos he] at hmem
      have hmem2 := List.mem_of_mem_take hmem
      obtain ⟨a, _, ha⟩ := List.mem_filterMap.mp hmem2
      split at ha
      · exact absurd ha (by simp)
      · simp only [Option.some.injEq] at ha
        subst ha
        exact strTake_fmtDate 1 hy hm
    · rw [if_neg he] at hmem
      exact processRows_prefix year month rows out hout it hmem

/-! ### Claim theorems -/

/-- Claim C1, counterexample: a CTUIL candidate row whose raw date token matches
none of the date-format strategies is NOT discarded — the extraction keeps it
and assigns the fallback date 2025-10-01, the first day of the requested month
(2025, 10), contradicting the claim that such rows are dropped and that no row
is ever assigned a fallback date. -/
theorem c1_counterexample :
    Ctuil.extract_items [c1row] [] 2025 10
      = Except.ok [{ date := "2025-10-01", title := "Grid update",
                     url := "https://ctuil.in/latestnews" }] := rfl

/-- Claim C1, amended: a candidate row whose raw date token matches none of the
date-format strategies is kept, not discarded: the CERC date normalizer returns
its caller-supplied fallback (the first day of the requested month) whenever the
date pattern finds no match, and the CTUIL row loop assigns the fallback date
`f"{year:04d}-{month:02d}-01"` to any anchored row without a parseable date,
which then passes the month filter, so the row is emitted with that date. -/
theorem c1_amended :
    (∀ (text fb : String), datePatSearchL text.toList = none → Cerc.norm_date text fb = fb)
    ∧ (∀ (r : Ctuil.CtuilRow) (year month : Nat) (t : String),
        r.anchorText = some t →
        Ctuil.row_date_iso r year = none →
        year ≤ 9999 → month ≤ 99 →
        Ctuil.rowStep r year month
          = Except.ok (some { date := fmtDate year month 1, title := t,
                              url := Ctuil.mk_abs r.anchorHref })) := by
  constructor
  · intro text fb h
    unfold Cerc.norm_date
    rw [h]
  · intro r year month t hat hdate hy hm
    simp only [Ctuil.rowStep, hat, hdate, Option.getD_none]
    rw [strTake_fmtDate 1 hy hm]
    simp

/-- Witness for C1 (amended): both hypotheses discharged on concrete inputs. -/
theorem c1_amended_witness :
    Cerc.norm_date "no numeric token" "2025-10-01" = "2025-10-01"
    ∧ Ctuil.rowStep c1row 2025 10
        = Except.ok (some { date := fmtDate 2025 10 1, title := "Grid update",
                            url := Ctuil.mk_abs c1row.anchorHref }) :=
  ⟨c1_amended.1 "no numeric token" "2025-10-01" rfl,
   c1_amended.2 c1row 2025 10 "Grid update" rfl rfl (by decide) (by decide)⟩

/-- Claim C2 (code bug): with a snapshot already stored for (2025, 10), running
the harvest job again fails with an `AttributeError` instead of merging — the
source calls `.setdefault` on the `(payload, last_updated)` tuple returned by
`read_month_snapshot` — while the first run (empty store) succeeds and writes
the merged snapshot. -/
theorem c2_code_bug :
    run_scraper_job 2025 10 (Json.arr []) "2025-10-05T03:00:01+05:30" c2fs
      = Except.error "AttributeError: tuple object has no attribute setdefault"
    ∧ run_scraper_job 2025 10 (Json.arr []) "2025-10-05T03:00:01+05:30" []
      = Except.ok [(c2key, some (Json.obj
          [("last_updated", Json.str "2025-10-05T03:00:01+05:30"),
           ("payload", Json.obj [("central", Json.obj [("CTUIL", Json.arr [])])])]))] :=
  ⟨rfl, rfl⟩

/-- Claim C3, counterexample: the CERC date normalizer (`_norm_date`, the cited
Date Normalizer) does not accept the textual token, so "08 Oct 2025" does not
normalize to the same date as "08.10.2025" — it falls back. -/
theorem c3_counterexample :
    Cerc.norm_date "08 Oct 2025" "2025-10-01" ≠ Cerc.norm_date "08.10.2025" "2025-10-01" := by
  decide

/-- Claim C3, amended: the three numeric formats DD.MM.YYYY, DD/MM/YYYY and
DD-MM-YYYY are all accepted by the CERC normalizer (one combined pattern, not a
three-step priority chain) and normalize the 08.10.2025-style tokens to
2025-10-08; the textual form is handled only by the CTUIL adapter's date
sniffing, which parses the day and month name case-insensitively and combines
them with the assumed target year, so "08 Oct 2025" under target year 2025
yields 2025-10-08 there, while the CERC normalizer returns its fallback on it —
no single normalizer accepts all three formats. -/
theorem c3_amended :
    (∀ fb : String, Cerc.norm_date "08.10.2025" fb = "2025-10-08")
    ∧ (∀ fb : String, Cerc.norm_date "08/10/2025" fb = "2025-10-08")
    ∧ (∀ fb : String, Cerc.norm_date "08-10-2025" fb = "2025-10-08")
    ∧ (∀ fb : String, Cerc.norm_date "08 Oct 2025" fb = fb)
    ∧ Ctuil.row_date_iso c3row 2025 = some "2025-10-08"
    ∧ Ctuil.coerce_date "08" "Oct" 2025 = some "2025-10-08" :=
  ⟨fun _ => rfl, fun _ => rfl, fun _ => rfl, fun _ => rfl, rfl, rfl⟩

/-- Claim C4, counterexample: the CERC dedupe keys on (lowercased title, date),
not (title, url) — two items with distinct (title, url) identities but the same
title and date collapse to one. -/
theorem c4_counterexample :
    Cerc.dedupe [c4a, c4b] = [c4a] ∧ (c4a.title, c4a.url) ≠ (c4b.title, c4b.url) :=
  ⟨rfl, by decide⟩

/-- Claim C4, amended: deduplication keeps exactly the first occurrence of each
key in input order, but the identity key differs by adapter: the CTUIL extractor
uses (title, url) as extracted, while the CERC adapter uses
(lowercased title, date) and then sorts the survivors. -/
theorem c4_amended :
    (∀ xs : List Ctuil.UpdateItem,
        dedupeByKey (fun it => (it.title, it.url)) xs
          = specDedupe (fun it => (it.title, it.url)) xs)
    ∧ (∀ xs : List Cerc.CercItem,
        Cerc.dedupe xs
          = Cerc.sortByDateDesc (specDedupe (fun it => (strLower it.title, it.date)) xs)) := by
  constructor
  · intro xs
    exact dedupeByKey_eq_spec _ xs
  · intro xs
    unfold Cerc.dedupe
    rw [dedupeByKey_eq_spec]

/-- Claim C5, counterexample: two CERC items with equal dates and ascending
titles survive deduplication and the sort leaves them in input order, so the
claimed descending-title tie-break `title[i] >= title[i+1]` fails (here
title[0] < title[1]). -/
theorem c5_counterexample :
    Cerc.dedupe [c5a, c5b] = [c5a, c5b] ∧ c5a.date = c5b.date ∧ c5a.title < c5b.title :=
  ⟨rfl, rfl, (strLtB_iff _ _).mp rfl⟩

/-- Claim C5, amended: lists produced by the CERC adapter do satisfy
`date[i] >= date[i+1]` for every pair (descending by date string, stable), but
equal-date items stay in first-occurrence order with no title tie-break; lists
produced by the CTUIL adapter are not sorted at all — deduplication yields a
sublist of the extraction order. Determinism holds trivially since the
embedding is a pure function of its input. -/
theorem c5_amended :
    (∀ xs : List Cerc.CercItem,
        List.Pairwise (fun a b => b.date ≤ a.date) (Cerc.dedupe xs))
    ∧ (∀ xs : List Ctuil.UpdateItem,
        List.Sublist (dedupeByKey (fun it => (it.title, it.url)) xs) xs) := by
  constructor
  · intro xs
    unfold Cerc.dedupe
    exact pairwise_sortByDateDesc _
  · intro xs
    exact dedupeAux_sublist _ xs []

/-- Claim C6, counterexample: an anchor whose context carries the token
"8.10.999" makes `_norm_date` return the unpadded strftime string "999-10-08";
`datetime.fromisoformat` rejects it, so the month filter's `except: pass` keeps
the item, and the harvest for (2025, 10) contains an item dated in year 999 —
refuting the claim that every harvested item's year and month equal the
requested ones. -/
theorem c6_counterexample :
    Cerc.collect_listpage "https://cercind.gov.in/Current_reg.html" [c6badAnchor] 2025 10
      = [{ type := "Regulation", title := "Solar tariff 8.10.999", date := "999-10-08",
           url := "https://cercind.gov.in/old.pdf" }]
    ∧ strTake "999-10-08" 7 ≠ fmtYM 2025 10 :=
  ⟨rfl, by decide⟩

/-- Claim C6, amended: for any requested (year, month) in the valid range, every
item a successful CTUIL extraction returns carries a date whose leading `YYYY-MM`
equals the requested year and month (the prefix filter is exact), and every item
the CERC list-page collector keeps either carries such a date or carries a valid
date with year below 1000: those stem from three-digit-year tokens, whose
unpadded strftime string `fromisoformat` rejects, so the `except: pass` clause
keeps them regardless of their month. -/
theorem c6_month_filter :
    ∀ (year month : Nat), 1 ≤ year → year ≤ 9999 → 1 ≤ month → month ≤ 12 →
      (∀ (url : String) (anchors : List Cerc.CercAnchor) (it : Cerc.CercItem),
          it ∈ Cerc.collect_listpage url anchors year month →
          strTake it.date 7 = fmtYM year month
          ∨ ∃ y m d, isValidDate y m d = true ∧ y < 1000 ∧ it.date = strfDate y m d)
      ∧ (∀ (rows : List Ctuil.CtuilRow) (docAnchors : List Ctuil.CtuilDocAnchor)
            (items : List Ctuil.UpdateItem) (it : Ctuil.UpdateItem),
          Ctuil.extract_items rows docAnchors year month = Except.ok items →
          it ∈ items → strTake it.date 7 = fmtYM year month) := by
  intro year month hy1 hy hm1 hm
  constructor
  · intro url anchors it hit
    obtain ⟨a, _, ha⟩ := List.mem_filterMap.mp hit
    exact anchor_step_month hy1 hy hm1 hm ha
  · intro rows docAnchors items it hex hit
    exact extract_items_prefix hy (by omega) hex it hit

/-- Witness for C6 (amended): the month-filter theorem applied to a concrete
CERC anchor carrying an in-month four-digit dotted date. -/
theorem c6_month_filter_witness :
    strTake c6item.date 7 = fmtYM 2025 10
    ∨ ∃ y m d, isValidDate y m d = true ∧ y < 1000 ∧ c6item.date = strfDate y m d :=
  (c6_month_filter 2025 10 (by decide) (by decide) (by decide) (by decide)).1
    "https://cercind.gov.in/recent_orders.html" [c6anchor] c6item (by decide)

/-- Claim C7: the staleness predicate is true exactly when the elapsed time
since the parsed timestamp strictly exceeds the threshold, the threshold is
3 hours, a 4-hour-old timestamp is stale and a 1-hour-old one is not. -/
theorem c7_staleness :
    (∀ now t : Int,
        Storage.is_snapshot_stale now (some t) = true ↔ now - t > Storage.STALE_AFTER)
    ∧ (∀ now : Int, Storage.is_snapshot_stale now (some (now - 4 * 3600)) = true)
    ∧ (∀ now : Int, Storage.is_snapshot_stale now (some (now - 1 * 3600)) = false)
    ∧ Storage.STALE_AFTER = 3 * 3600 := by
  refine ⟨fun now t => ?_, fun now => ?_, fun now => ?_, rfl⟩
  · simp [Storage.is_snapshot_stale, Storage.parse_aware]
  · simp only [Storage.is_snapshot_stale, Storage.parse_aware, Option.getD_some,
      Storage.STALE_AFTER, decide_eq_true_eq]
    omega
  · simp only [Storage.is_snapshot_stale, Storage.parse_aware, Option.getD_some,
      Storage.STALE_AFTER]
    rw [decide_eq_false_iff_not]
    omega

/-- Claim C8: writing a snapshot and reading it back returns the payload
structurally unchanged together with the timestamp stamped at write time, for
every JSON payload, store state, key and prefix. -/
theorem c8_roundtrip :
    ∀ (fs : Storage.FileSys) (year month : Nat) (pfx : String) (payload : Json)
      (nowIso : String),
      Storage.read_month_snapshot year month pfx
          (Storage.write_month_snapshot year month payload nowIso pfx fs)
        = some (payload, Json.str nowIso) := by
  intro fs year month pfx payload nowIso
  unfold Storage.read_month_snapshot Storage.write_month_snapshot Storage.fsWrite
  have hfind : Storage.fsFind
      ((Storage.month_key pfx year month,
        some (Json.obj [("last_updated", Json.str nowIso), ("payload", payload)])) :: fs)
      (Storage.month_key pfx year month)
      = some (some (Json.obj [("last_updated", Json.str nowIso), ("payload", payload)])) := by
    simp [Storage.fsFind, List.find?_cons_of_pos]
  rw [hfind]
  simp [Storage.jget, List.find?]

/-- Claim C9: a stored last-updated string that does not parse as an ISO-8601
timestamp makes `_parse_aware` return the current instant, so the staleness
predicate is false — the snapshot is treated as just refreshed, never as stale
and never as an error. -/
theorem c9_unparseable_not_stale :
    ∀ now : Int, Storage.is_snapshot_stale now none = false := by
  intro now
  simp only [Storage.is_snapshot_stale, Storage.parse_aware, Option.getD_none,
    Storage.STALE_AFTER]
  rw [decide_eq_false_iff_not]
  omega

/-- Claim C10: the read accessor returns the same explicit absence result
(`none`) both when no snapshot file exists for the key and when the stored file
is not valid JSON; being a total function of the store it never raises, and in
both cases nothing of the file's content is returned. -/
theorem c10_read_absence :
    ∀ (year month : Nat) (pfx : String) (fs : Storage.FileSys),
      Storage.fsFind fs (Storage.month_key pfx year month) = none
        ∨ Storage.fsFind fs (Storage.month_key pfx year month) = some none →
      Storage.read_month_snapshot year month pfx fs = none := by
  intro year month pfx fs h
  unfold Storage.read_month_snapshot
  rcases h with h | h <;> rw [h]

/-- Witness for C10: a store holding a corrupt (non-JSON) snapshot file for the
key reads back as absent. -/
theorem c10_read_absence_witness :
    Storage.read_month_snapshot 2025 10 "ctuil"
      [(Storage.month_key "ctuil" 2025 10, none)] = none :=
  c10_read_absence 2025 10 "ctuil" _ (Or.inr rfl)

end NSEFI
